import Mathlib

/-!
Verification of the CompSnapshots review-scraping and review-analysis core.

The development shallowly embeds two source modules:

* `backend/src/analysis.ts` (bundled in `src/unnamed/part_000`): the
  `cleanReviewText` / `tokenize` helpers and the `analyzeCompetitor`
  aggregation pipeline.
* `backend/src/scrapers/googleMaps.ts` (bundled as the final segment of
  `src/backend/src/reportTemplate.ts`, lines 316-762): the current
  `scrapeGoogleMapsReviews` orchestrator with per-item failure isolation,
  text-based fallback extraction, the acceptance check, and the per-record
  insert loop.  (An older snapshot of the same module, `src/unnamed/part_002`,
  lacks all of these; the specification §4.1-4.3 describes the current one,
  which is the module imported by the current `backend/src/index.ts`.)

JavaScript string/regex semantics are reproduced on `List Char`:
`\s`, `\d`, `\w`/`\b`, case-insensitive matching, global replacement, and
leftmost-first alternation with the backtracking each concrete pattern needs.
External collaborators (the Playwright renderer, the Postgres pool, the
`sentiment` npm package) are modelled at their interfaces: a review item is a
record of the element reads the scraper performs (each read may throw), the
reviews table is a list of inserted rows, and the sentiment scorer is a
function parameter `String → ℤ`.
-/

namespace CompSnapshots

/-! ## JavaScript character classes and string primitives -/

/-- Character class `\w` of a JavaScript regex: ASCII letters, digits and
underscore; used for `\b` word-boundary tests. -/
def jsIsWordChar (c : Char) : Bool :=
  (c ≥ 'a' && c ≤ 'z') || (c ≥ 'A' && c ≤ 'Z') || (c ≥ '0' && c ≤ '9') || c = '_'

/-- Character class `\s` of a JavaScript regex (also the set trimmed by
`String.prototype.trim`). -/
def jsIsSpace (c : Char) : Bool :=
  let n := c.toNat
  n = 0x20 || n = 0x09 || n = 0x0a || n = 0x0b || n = 0x0c || n = 0x0d ||
  n = 0xa0 || n = 0x1680 || (0x2000 ≤ n && n ≤ 0x200a) || n = 0x2028 ||
  n = 0x2029 || n = 0x202f || n = 0x205f || n = 0x3000 || n = 0xfeff

/-- Character class `\d` of a JavaScript regex: ASCII digits. -/
def jsIsDigit (c : Char) : Bool := '0' ≤ c && c ≤ '9'

/-- Model of `String.prototype.trim`: drop leading and trailing `\s`
characters. -/
def jsTrim (s : String) : String :=
  String.mk (((s.toList.dropWhile jsIsSpace).reverse.dropWhile jsIsSpace).reverse)

/-- Split a character list at every separator character, keeping empty
fragments, like JavaScript `split` with a single-character separator (and
like splitting on `\s` one character at a time). -/
def splitBy (p : Char → Bool) : List Char → List (List Char)
  | [] => [[]]
  | c :: rest =>
    let r := splitBy p rest
    if p c then [] :: r
    else
      match r with
      | h :: t => (c :: h) :: t
      | [] => [[c]]

/-- Case-insensitive prefix match against a pre-lowercased pattern, the way a
`/.../i` regex compares a literal.  `Char.toLower` agrees with JavaScript
`toLowerCase` on the ASCII literals every embedded pattern consists of. -/
def matchCI : List Char → List Char → Bool
  | [], _ => true
  | _ :: _, [] => false
  | p :: ps, c :: cs => p == c.toLower && matchCI ps cs

/-- Global regex replacement driver shared by every `replace(/…/g, rep)` in
the source.  `matcher prev cs` reports a match of length `n` at the head of
`cs` (`prev` is the original character just before `cs`, for `\b` tests, and
the returned `Char` is the final character of the match, preserving the
word-ness needed by a later `\b` test).  Scanning is leftmost-first and
continues after each match, exactly like a sticky global regex; `fuel` is an
upper bound on the number of scan steps and `length + 1` always suffices
because every matcher consumes at least one character. -/
def replaceAllFuel (matcher : Option Char → List Char → Option (Char × Nat))
    (rep : List Char) : Nat → Option Char → List Char → List Char
  | 0, _, cs => cs
  | _ + 1, _, [] => []
  | fuel + 1, prev, c :: cs =>
    match matcher prev (c :: cs) with
    | some (last, n) => rep ++ replaceAllFuel matcher rep fuel (some last) (List.drop (n - 1) cs)
    | none => c :: replaceAllFuel matcher rep fuel (some c) cs

/-- Run a global replacement over a whole string. -/
def replaceAllWith (matcher : Option Char → List Char → Option (Char × Nat))
    (rep : List Char) (s : String) : String :=
  String.mk (replaceAllFuel matcher rep (s.toList.length + 1) none s.toList)

/-! ## `cleanReviewText` (analysis.ts lines 110-128)

`cleanReviewText` applies, in order:
1. `replace(/\b(Meer|Like|Delen|reviews?|review|foto'?s?)\b/gi, "")`
2. `replace(/Local Guide.*?/gi, "")` (the lazy `.*?` matches the empty
   string because nothing follows it, so this deletes the literal
   `Local Guide`)
3. `replace(/\d+\s+reviews?/gi, "")`
4. `replace(/\d+\s+foto'?s?/gi, "")`
5. deletion of the three private-use glyphs U+E5D4, U+E8DC, U+E80D
6. `replace(/\s{2,}/g, " ")` then `trim()`. -/

/-- Alternatives of the noise-word group in JavaScript backtracking order:
each `?`-quantified literal expands greedy-first (`reviews?` to
`reviews`,`review`; `foto'?s?` to all four combinations). -/
def noiseAlts : List (List Char) :=
  ["meer".toList, "like".toList, "delen".toList,
   "reviews".toList, "review".toList, "review".toList,
   "foto\x27s".toList, "foto\x27".toList, "fotos".toList, "foto".toList]

/-- Matcher for pass 1, `\b(Meer|…|foto'?s?)\b` with the `i` flag.  Every
alternative begins with a word character, so the leading `\b` holds exactly
when the preceding character is absent or not a word character; the trailing
`\b` compares the word-ness of the final matched character with the next
one (end of input counts as non-word). -/
def noiseWordAt : Option Char → List Char → Option (Char × Nat) :=
  fun prev cs =>
    let okBefore := match prev with
      | some p => !jsIsWordChar p
      | none => true
    if okBefore then
      noiseAlts.findSome? fun cand =>
        if matchCI cand cs then
          let last := cand.getLastD ' '
          let okAfter := match cs.drop cand.length with
            | [] => jsIsWordChar last
            | c :: _ => jsIsWordChar last != jsIsWordChar c
          if okAfter then some (last, cand.length) else none
        else none
    else none

/-- Matcher for pass 2, `Local Guide.*?` with the `i` flag: the lazy tail
matches the empty string, so each occurrence of the 11-character literal is
deleted. -/
def localGuideAt : Option Char → List Char → Option (Char × Nat) :=
  fun _ cs => if matchCI "local guide".toList cs then some ('e', 11) else none

/-- Matcher for pass 3, `\d+\s+reviews?` with the `i` flag (greedy digits,
at least one whitespace, `review`, optional `s`). -/
def numReviewsAt : Option Char → List Char → Option (Char × Nat) :=
  fun _ cs =>
    let ds := cs.takeWhile jsIsDigit
    if ds.isEmpty then none
    else
      let r1 := cs.drop ds.length
      let ws := r1.takeWhile jsIsSpace
      if ws.isEmpty then none
      else
        let r2 := r1.drop ws.length
        if matchCI "review".toList r2 then
          let extra := match r2.drop 6 with
            | c :: _ => if c.toLower == 's' then 1 else 0
            | [] => 0
          some ('s', ds.length + ws.length + 6 + extra)
        else none

/-- Matcher for pass 4, `\d+\s+foto'?s?` with the `i` flag. -/
def numFotosAt : Option Char → List Char → Option (Char × Nat) :=
  fun _ cs =>
    let ds := cs.takeWhile jsIsDigit
    if ds.isEmpty then none
    else
      let r1 := cs.drop ds.length
      let ws := r1.takeWhile jsIsSpace
      if ws.isEmpty then none
      else
        let r2 := r1.drop ws.length
        if matchCI "foto".toList r2 then
          let r3 := r2.drop 4
          let apo := match r3 with
            | c :: _ => if c == '\x27' then 1 else 0
            | [] => 0
          let r4 := r3.drop apo
          let ess := match r4 with
            | c :: _ => if c.toLower == 's' then 1 else 0
            | [] => 0
          some ('s', ds.length + ws.length + 4 + apo + ess)
        else none

/-- Pass 5: deletion of the decorative private-use glyphs appearing in the
source's `[…]` character class (U+E5D4, U+E8DC, U+E80D). -/
def iconStrip (s : String) : String :=
  String.mk (s.toList.filter fun c =>
    !(c.toNat == 0xE5D4 || c.toNat == 0xE8DC || c.toNat == 0xE80D))

/-- Matcher for pass 6, `\s{2,}`: a maximal whitespace run of length at
least two (replaced by a single space). -/
def wsCollapseAt : Option Char → List Char → Option (Char × Nat) :=
  fun _ cs =>
    let ws := cs.takeWhile jsIsSpace
    if ws.length ≥ 2 then some (' ', ws.length) else none

/-- Embedding of `cleanReviewText` (analysis.ts lines 110-128). -/
def cleanReviewText (raw : String) : String :=
  let t1 := replaceAllWith noiseWordAt [] raw
  let t2 := replaceAllWith localGuideAt [] t1
  let t3 := replaceAllWith numReviewsAt [] t2
  let t4 := replaceAllWith numFotosAt [] t3
  let t5 := iconStrip t4
  let t6 := replaceAllWith wsCollapseAt [' '] t5
  jsTrim t6

/-! ## `tokenize` (analysis.ts lines 102-108) -/

/-- The fixed stopword set of analysis.ts. -/
def STOPWORDS : List String :=
  ["the", "a", "an", "and", "or", "to", "of", "in", "on", "for", "with",
   "is", "it", "this", "that", "was", "were", "are", "at", "as", "but",
   "be", "have", "has", "had", "they", "them", "you", "your", "we", "our",
   "i", "he", "she", "their", "from", "so", "if", "not", "very", "just",
   "my", "me", "us"]

/-- Embedding of `tokenize`: lowercase, map every character outside
`[a-z0-9\s]` to a space, split on whitespace, keep tokens longer than two
characters that are not stopwords.  (JavaScript `split(/\s+/)` differs from
per-character splitting only by empty fragments, all of which the length
filter removes.) -/
def tokenize (text : String) : List String :=
  let lowered := text.toList.map Char.toLower
  let sep := lowered.map fun c =>
    if ('a' ≤ c && c ≤ 'z') || jsIsDigit c || jsIsSpace c then c else ' '
  ((splitBy jsIsSpace sep).map String.mk).filter fun t =>
    t.length > 2 && !(STOPWORDS.contains t)

/-! ## Regex helpers of scrapers/googleMaps.ts

Each pattern the scraper uses is embedded as a matcher on `List Char`
reporting a match at the head position; leftmost-first scanning wrappers
recover JavaScript `match` semantics, and the global-replacement driver
above recovers `replace(/…/g, …)`. -/

/-- Numeric value of an ASCII digit run. -/
def digitsVal (ds : List Char) : Nat :=
  ds.foldl (fun a c => a * 10 + (c.toNat - 48)) 0

/-- Value of `parseFloat` applied to a captured group `\d+(\.\d+)?`. -/
def parseNumQ (intPart fracPart : List Char) : ℚ :=
  (digitsVal intPart : ℚ) +
    (if fracPart.isEmpty then 0
     else (digitsVal fracPart : ℚ) / ((10 : ℚ) ^ fracPart.length))

/-- Match `\d+(\.\d+)?` at the head, then hand the remainder to `tail` (the
rest of the pattern).  The fractional part is tried greedily first and
dropped on failure, reproducing the regex backtracking order; the result is
the captured numeric value and the total matched length. -/
def numThen (tail : List Char → Option Nat) (cs : List Char) : Option (ℚ × Nat) :=
  let ds := cs.takeWhile jsIsDigit
  if ds.isEmpty then none
  else
    let rest := cs.drop ds.length
    let withFrac : Option (ℚ × Nat) :=
      match rest with
      | '.' :: r2 =>
        let fs := r2.takeWhile jsIsDigit
        if fs.isEmpty then none
        else
          match tail (r2.drop fs.length) with
          | some n => some (parseNumQ ds fs, ds.length + 1 + fs.length + n)
          | none => none
      | _ => none
    match withFrac with
    | some v => some v
    | none =>
      match tail rest with
      | some n => some (parseNumQ ds [], ds.length + n)
      | none => none

/-- Tail `\s*(?:out of|\/)\s*5` (case-insensitive).  The whitespace runs are
maximal, which is faithful because neither `out of`, `/`, nor `5` begins
with a whitespace character. -/
def outOf5Tail (cs : List Char) : Option Nat :=
  let ws := cs.takeWhile jsIsSpace
  let r := cs.drop ws.length
  let sep : Option Nat :=
    if matchCI "out of".toList r then some 6
    else if r.head? == some '/' then some 1
    else none
  match sep with
  | some k =>
    let r2 := r.drop k
    let ws2 := r2.takeWhile jsIsSpace
    if (r2.drop ws2.length).head? == some '5' then
      some (ws.length + k + ws2.length + 1)
    else none
  | none => none

/-- Tail `\s*star` (case-insensitive). -/
def starTail (cs : List Char) : Option Nat :=
  let ws := cs.takeWhile jsIsSpace
  if matchCI "star".toList (cs.drop ws.length) then some (ws.length + 4) else none

/-- Scan for the leftmost position where a value-producing pattern matches,
like `String.prototype.match` without the `g` flag. -/
def scanFirstQ (patAt : List Char → Option ℚ) : List Char → Option ℚ
  | [] => none
  | c :: cs =>
    match patAt (c :: cs) with
    | some v => some v
    | none => scanFirstQ patAt cs

/-- Does a length-producing pattern match anywhere (Boolean `match` test)? -/
def scanAny (patAt : List Char → Option Nat) : List Char → Bool
  | [] => false
  | c :: cs => (patAt (c :: cs)).isSome || scanAny patAt cs

/-- Leftmost match of a length-producing pattern, returned as the matched
substring (the scraper reads capture group 1, which spans the whole
pattern). -/
def extractFirst (patAt : List Char → Option Nat) : List Char → Option String
  | [] => none
  | c :: cs =>
    match patAt (c :: cs) with
    | some n => some (String.mk ((c :: cs).take n))
    | none => extractFirst patAt cs

/-- Pattern `Rated (\d+(?:\.\d+)?) out of 5|(\d+(?:\.\d+)?)\s*star` (flag
`i`) at one position; alternation is tried left to right. -/
def ariaPatAt (cs : List Char) : Option ℚ :=
  let alt1 : Option ℚ :=
    if matchCI "rated ".toList cs then
      (numThen (fun r => if matchCI " out of 5".toList r then some 9 else none)
        (cs.drop 6)).map Prod.fst
    else none
  match alt1 with
  | some v => some v
  | none => (numThen starTail cs).map Prod.fst

/-- `ratingText.match(/Rated (\d+(?:\.\d+)?) out of 5|(\d+(?:\.\d+)?)\s*star/i)`
followed by `parseFloat(match[1] || match[2] || "0")`: whichever alternative
matched, its captured group carries the numeric value. -/
def ariaRatingMatch (s : String) : Option ℚ :=
  scanFirstQ ariaPatAt s.toList

/-- Pattern `(\d+(?:\.\d+)?)\s*(?:out of|\/)\s*5|(\d+(?:\.\d+)?)\s*star`
(flag `i`) at one position. -/
def textRatePatAt (cs : List Char) : Option ℚ :=
  match numThen outOf5Tail cs with
  | some (v, _) => some v
  | none => (numThen starTail cs).map Prod.fst

/-- Method 2 of rating extraction: match the text pattern anywhere in the
flattened text and keep the value only if `0 < v ≤ 5` (scraper lines
573-581). -/
def textRatingMatch (s : String) : Option ℚ :=
  match scanFirstQ textRatePatAt s.toList with
  | some v => if 0 < v && v ≤ 5 then some v else none
  | none => none

/-- Pattern `\d+\s*(?:out of|\/)\s*5|\d+\s*star` (flag `i`) at one position,
with its match length (used both as a Boolean line test and for global
removal). -/
def ratingPatAt (cs : List Char) : Option Nat :=
  let ds := cs.takeWhile jsIsDigit
  if ds.isEmpty then none
  else
    let rest := cs.drop ds.length
    match outOf5Tail rest with
    | some n => some (ds.length + n)
    | none =>
      match starTail rest with
      | some n => some (ds.length + n)
      | none => none

/-- `line.match(/\d+\s*(?:out of|\/)\s*5|\d+\s*star/i)` as a Boolean. -/
def hasRatingPattern (s : String) : Bool := scanAny ratingPatAt s.toList

/-- Date units of the scraper's long date pattern, in alternation order.
No unit is a prefix of another, so at most one matches at a position. -/
def dateUnits : List (List Char) :=
  ["month".toList, "year".toList, "week".toList, "day".toList,
   "hour".toList, "minute".toList]

/-- Tail `s?\s*ago` (case-insensitive): the optional `s` is tried greedily
first and dropped if `\s*ago` then fails, mirroring regex backtracking. -/
def agoTail (cs : List Char) : Option Nat :=
  let withS : Option Nat :=
    match cs with
    | c :: r =>
      if c.toLower == 's' then
        let ws := r.takeWhile jsIsSpace
        if matchCI "ago".toList (r.drop ws.length) then some (1 + ws.length + 3)
        else none
      else none
    | [] => none
  match withS with
  | some n => some n
  | none =>
    let ws := cs.takeWhile jsIsSpace
    if matchCI "ago".toList (cs.drop ws.length) then some (ws.length + 3) else none

/-- Pattern `\d+\s*(?:month|year|week|day|hour|minute)s?\s*ago` (flag `i`)
at one position, with its match length. -/
def datePatAt (cs : List Char) : Option Nat :=
  let ds := cs.takeWhile jsIsDigit
  if ds.isEmpty then none
  else
    let r1 := cs.drop ds.length
    let ws := r1.takeWhile jsIsSpace
    let r2 := r1.drop ws.length
    match dateUnits.findSome? (fun u => if matchCI u r2 then some u.length else none) with
    | some k =>
      match agoTail (r2.drop k) with
      | some n => some (ds.length + ws.length + k + n)
      | none => none
    | none => none

/-- Boolean date-line test (scraper line 625). -/
def hasDatePattern (s : String) : Bool := scanAny datePatAt s.toList

/-- Method 2 of date extraction applied to one line: the leftmost match of
the date pattern, as the captured substring (scraper line 678). -/
def dateLineMatch (line : String) : Option String :=
  extractFirst datePatAt line.toList

/-- Units of the name-suffix pattern (no `hour`/`minute`). -/
def nameUnits : List (List Char) :=
  ["month".toList, "year".toList, "week".toList, "day".toList]

/-- Does `\s*\d+\s*(?:month|year|week|day)s?\s*ago.*$` match starting here?
Without the `m` flag, `$` only matches at the very end and `.` cannot cross
a newline, so the trailing `.*$` succeeds exactly when no newline follows
the `ago`. -/
def nameSuffixAt (cs : List Char) : Bool :=
  let ws := cs.takeWhile jsIsSpace
  let r := cs.drop ws.length
  let ds := r.takeWhile jsIsDigit
  if ds.isEmpty then false
  else
    let r1 := r.drop ds.length
    let ws1 := r1.takeWhile jsIsSpace
    let r2 := r1.drop ws1.length
    match nameUnits.findSome? (fun u => if matchCI u r2 then some u.length else none) with
    | some k =>
      match agoTail (r2.drop k) with
      | some n => !((r2.drop k).drop n).contains '\n'
      | none => false
    | none => false

/-- Index of the leftmost position satisfying a positional predicate. -/
def firstIdxWhere (p : List Char → Bool) : List Char → Option Nat
  | [] => none
  | c :: cs => if p (c :: cs) then some 0 else (firstIdxWhere p cs).map (· + 1)

/-- `reviewer_name.replace(/\s*\d+\s*(?:month|year|week|day)s?\s*ago.*$/i, '')`
(scraper line 601): delete from the leftmost suffix match to the end. -/
def stripNameSuffix (s : String) : String :=
  match firstIdxWhere nameSuffixAt s.toList with
  | some i => String.mk (s.toList.take i)
  | none => s

/-- Global case-insensitive removal of a literal string (the scraper
regex-escapes `reviewer_name`, so the `gi` regex is an exact literal). -/
def removeAllCI (lit : String) (s : String) : String :=
  let p := lit.toList.map Char.toLower
  replaceAllWith (fun _ cs => if matchCI p cs then some (' ', p.length) else none) [] s

/-- `replace(/\d+\s*(?:out of|\/)\s*5|\d+\s*star/gi, '')`. -/
def removeRatingPatterns (s : String) : String :=
  replaceAllWith (fun _ cs => (ratingPatAt cs).map (fun n => (' ', n))) [] s

/-- `replace(/\d+\s*(?:month|year|week|day|hour|minute)s?\s*ago/gi, '')`. -/
def removeDatePatterns (s : String) : String :=
  replaceAllWith (fun _ cs => (datePatAt cs).map (fun n => (' ', n))) [] s

/-- `replace(/\n+/g, ' ')`: each maximal run of newlines becomes one
space. -/
def collapseNewlines (s : String) : String :=
  replaceAllWith
    (fun _ cs =>
      let r := cs.takeWhile (· == '\n')
      if r.length ≥ 1 then some (' ', r.length) else none)
    [' '] s

/-! ## Data model and item processing (scrapers/googleMaps.ts) -/

/-- JavaScript truthiness of a nullable string variable: `null` and the
empty string are falsy. -/
def jsTruthyS : Option String → Bool
  | none => false
  | some s => !(s == "")

/-- JavaScript truthiness of a nullable number variable: `null` and `0` are
falsy (`NaN` never arises because `parseFloat` is only applied to digit
groups the regexes captured). -/
def jsTruthyQ : Option ℚ → Bool
  | none => false
  | some q => !(q == 0)

/-- The `x || null` coercion applied to each string field when a record is
pushed: an empty string becomes `null`. -/
def jsOrNull : Option String → Option String
  | none => none
  | some s => if s == "" then none else some s

/-- The `ScrapedReview` record of scrapers/googleMaps.ts. -/
structure ScrapedReview where
  rating : Option ℚ
  review_text : Option String
  review_date : Option String
  reviewer_name : Option String
deriving DecidableEq, Repr

/-- One rendered review item, modelled by the element reads the scraper
performs on it.  `innerTextR` is the result of `item.innerText()` (which may
throw).  Each `…El` field is the combined result of the corresponding
`item.$(selector)` query and the follow-up read: `none` when the element is
absent (or the query/read threw inside a caught block where that leaves the
variable untouched), `some (Except.error e)` when the read throws, and
`some (Except.ok v)` when it returns; for the rating element the returned
attribute may itself be `null`. -/
structure ReviewItem where
  innerTextR : Except String String
  ratingEl : Option (Except String (Option String))
  nameEl : Option (Except String String)
  textEl : Option (Except String String)
  dateEl : Option (Except String String)

/-- `allText.split('\n').map(trim).filter(length > 0)` (scraper line 546). -/
def jsLines (allText : String) : List String :=
  (((splitBy (· == '\n') allText.toList).map String.mk).map jsTrim).filter
    fun l => !(l == "")

/-- Rating extraction (scraper lines 554-581).  Method 1 reads the rating
element's `aria-label`; a throw is caught and leaves the rating `null`.
`if (!rating)` then runs Method 2 when the variable is `null` or `0`; if
Method 2 finds no in-range value the variable keeps its old value (so an
aria-label that parsed to `0` is kept as `0`). -/
def extractRating (item : ReviewItem) (allText : String) : Option ℚ :=
  let m1 : Option ℚ :=
    match item.ratingEl with
    | some (Except.ok (some t)) => ariaRatingMatch t
    | _ => none
  match m1 with
  | none => textRatingMatch allText
  | some q =>
    if q == 0 then
      match textRatingMatch allText with
      | some v => some v
      | none => some 0
    else some q

/-- Reviewer-name extraction (scraper lines 584-602).  Method 1 reads the
contributor link/profile button text; Method 2 takes the first line and
strips a trailing relative-date suffix.  `lines` is nonempty and its head
nonempty whenever this runs, but the guards are kept as written. -/
def extractName (item : ReviewItem) (lines : List String) : Option String :=
  let n1 : Option String :=
    match item.nameEl with
    | some (Except.ok s) => some (jsTrim s)
    | _ => none
  if jsTruthyS n1 then n1
  else
    match lines.head? with
    | some l0 => if l0 == "" then n1 else some (jsTrim (stripNameSuffix l0))
    | none => n1

/-- The line filter of text-extraction Method 2 (scraper lines 620-630):
drop empty lines, rating-pattern lines, date-pattern lines, and lines equal
to the extracted reviewer name. -/
def keepTextLine (line : String) (rname : Option String) : Bool :=
  if line == "" then false
  else if hasRatingPattern line then false
  else if hasDatePattern line then false
  else
    match rname with
    | some n => if n == "" then true else !(jsTrim line == jsTrim n)
    | none => true

/-- Text-extraction Method 3 (scraper lines 639-657): start from the full
flattened text, remove every occurrence of the reviewer name (when truthy),
every rating pattern and every date pattern, collapse newline runs to a
space, and trim. -/
def m3Clean (allText : String) (rname : Option String) : String :=
  let s1 :=
    match rname with
    | some n => if n == "" then allText else removeAllCI n allText
    | none => allText
  jsTrim (collapseNewlines (removeDatePatterns (removeRatingPatterns s1)))

/-- Review-text extraction (scraper lines 604-657): Method 1 reads a known
text element; Method 2 joins the kept lines after the first; Method 3 keeps
the cleaned residue only when longer than 20 characters.  Each later method
runs only when the variable is still falsy, and a failed method leaves the
variable's previous value. -/
def extractText (item : ReviewItem) (lines : List String) (rname : Option String)
    (allText : String) : Option String :=
  let t1 : Option String :=
    match item.textEl with
    | some (Except.ok s) => some (jsTrim s)
    | _ => none
  let t2 :=
    if jsTruthyS t1 then t1
    else if lines.length > 1 then
      let textLines := (lines.drop 1).filter fun line => keepTextLine line rname
      if textLines.length > 0 then
        let j := jsTrim (String.intercalate " " textLines)
        if j == "" then none else some j
      else t1
    else t1
  if jsTruthyS t2 then t2
  else
    let cleaned := m3Clean allText rname
    if cleaned.length > 20 then some cleaned else t2

/-- Date extraction (scraper lines 660-684): Method 1 reads a known date
element; Method 2 scans the lines from the end for the first date-pattern
match. -/
def extractDate (item : ReviewItem) (lines : List String) : Option String :=
  let d1 : Option String :=
    match item.dateEl with
    | some (Except.ok s) => some (jsTrim s)
    | _ => none
  if jsTruthyS d1 then d1
  else
    match lines.reverse.findSome? dateLineMatch with
    | some s => some s
    | none => d1

/-- The acceptance check and record construction (scraper lines 690-696):
push a record only when at least one of the four extracted values is truthy,
coercing empty strings to `null`; the rating variable is stored as-is. -/
def buildRecord (rating : Option ℚ) (rtext rdate rname : Option String) :
    Option ScrapedReview :=
  if jsTruthyQ rating || jsTruthyS rtext || jsTruthyS rname || jsTruthyS rdate then
    some { rating := rating, review_text := jsOrNull rtext,
           review_date := jsOrNull rdate, reviewer_name := jsOrNull rname }
  else none

/-- Processing of one review item (scraper lines 517-707).  The whole body
runs inside a per-item failure boundary: a throw from the text read is
caught, logged and skips the item (`continue`), as does empty text, an empty
line list, or rejection by the acceptance check.  The result is `some r`
exactly when the iteration pushes a record for this item. -/
def processItem (item : ReviewItem) : Option ScrapedReview :=
  match item.innerTextR with
  | Except.error _ => none
  | Except.ok allText =>
    if allText == "" || jsTrim allText == "" then none
    else
      let lines := jsLines allText
      if lines.isEmpty then none
      else
        let rating := extractRating item allText
        let rname := extractName item lines
        let rtext := extractText item lines rname allText
        let rdate := extractDate item lines
        buildRecord rating rtext rdate rname

/-- One row of `public.reviews` as the scraper's INSERT writes it (scraper
lines 720-733): the `review_date` column receives the extracted relative
string unchanged (the source comments "Store as string, not Date object"),
`source` is the literal tag, and `raw_data` is the JSON capture of the
scraped record. -/
structure InsertedRow where
  competitor_id : String
  rating : Option ℚ
  review_text : Option String
  review_date : Option String
  reviewer_name : Option String
  source : String
  raw_data : ScrapedReview
deriving DecidableEq, Repr

/-- The parameter tuple of the scraper's INSERT for one accepted record. -/
def toRow (cid : String) (r : ScrapedReview) : InsertedRow :=
  { competitor_id := cid, rating := r.rating, review_text := r.review_text,
    review_date := r.review_date, reviewer_name := r.reviewer_name,
    source := "google_maps", raw_data := r }

/-- The records the item loop accumulates: at most `maxReviews` items are
visited in source order, and each visit contributes a record exactly when
`processItem` accepts it. -/
def scrapedOf (items : List ReviewItem) (maxReviews : Nat) : List ScrapedReview :=
  (items.take maxReviews).filterMap processItem

/-- The insert loop (scraper lines 712-741): each record's INSERT is issued
inside a per-record failure boundary; `insertOk idx` tells whether the
INSERT at loop index `idx` succeeds.  A failure is logged and iteration
continues; `insertedCount` counts only successes.  Returns the rows actually
written, in order, with the final count. -/
def insertAll (cid : String) (insertOk : Nat → Bool) :
    Nat → List ScrapedReview → List InsertedRow × Nat
  | _, [] => ([], 0)
  | idx, r :: rs =>
    let rest := insertAll cid insertOk (idx + 1) rs
    if insertOk idx then (toRow cid r :: rest.1, rest.2 + 1) else (rest.1, rest.2)

/-- Embedding of `scrapeGoogleMapsReviews` (scraper lines 326-762) for a
scrape whose navigation succeeded: the rendering phases (navigation, consent
dismissal, Reviews tab, selector fallbacks and scrolling) are modelled by
the located item list `items`; `db` is the reviews table before the call.
The result is the table after the call together with the returned
`insertedCount` — the number of records actually persisted, not the number
scraped. -/
def scrapeGoogleMapsReviews (cid : String) (items : List ReviewItem)
    (maxReviews : Nat) (insertOk : Nat → Bool) (db : List InsertedRow) :
    List InsertedRow × Nat :=
  let scraped := scrapedOf items maxReviews
  let res := insertAll cid insertOk 0 scraped
  (db ++ res.1, res.2)

/-! ## Analysis engine (analysis.ts lines 131-261) -/

/-- One row of the analysis query's result set (`SELECT rating, review_text
FROM public.reviews WHERE competitor_id = $1 AND review_text IS NOT NULL`). -/
structure ReviewRow where
  rating : Option ℚ
  review_text : Option String
deriving DecidableEq, Repr

/-- Embedding of the analysis query: the stored rows for the competitor
whose `review_text` column is not NULL, projected to the selected columns,
in table order. -/
def fetchReviewRows (store : List InsertedRow) (cid : String) : List ReviewRow :=
  (store.filter fun r => r.competitor_id == cid && r.review_text.isSome).map
    fun r => { rating := r.rating, review_text := r.review_text }

/-- The `sentiment_breakdown` component of the analysis output. -/
structure SentimentBreakdown where
  positive : ℤ
  neutral : ℤ
  negative : ℤ
deriving DecidableEq, Repr

/-- The `CompetitorAnalysis` output type of analysis.ts.  `rating_distribution`
is a JavaScript object, i.e. an insertion-ordered association list. -/
structure CompetitorAnalysis where
  competitor_id : String
  total_reviews : Nat
  avg_rating : Option ℚ
  rating_distribution : List (String × Nat)
  sentiment_breakdown : SentimentBreakdown
  top_keywords : List String
  top_positive_snippets : List String
  top_negative_snippets : List String
deriving DecidableEq, Repr

/-- The ephemeral `ScoredReview` records kept for snippet ranking; `rating`
holds the already-coerced `row.rating ?? 0`. -/
structure ScoredReview where
  text : String
  score : ℤ
  rating : ℚ
deriving DecidableEq, Repr

/-- The accumulators of the per-row loop of `analyzeCompetitor`. -/
structure AnalysisState where
  ratingSum : ℚ
  dist : List (String × Nat)
  posCount : Nat
  neuCount : Nat
  negCount : Nat
  positiveReviews : List ScoredReview
  negativeReviews : List ScoredReview
  keywordFreq : List (String × Nat)
deriving Repr

/-- The accumulators before the loop: the distribution is zero-filled for
buckets "1" through "5" (analysis.ts lines 164-184). -/
def initState : AnalysisState :=
  { ratingSum := 0,
    dist := [("1", 0), ("2", 0), ("3", 0), ("4", 0), ("5", 0)],
    posCount := 0, neuCount := 0, negCount := 0,
    positiveReviews := [], negativeReviews := [], keywordFreq := [] }

/-- `obj[k] = (obj[k] || 0) + 1` on a JavaScript object: update the entry in
place when the key exists, otherwise append it with count 1. -/
def bump (m : List (String × Nat)) (k : String) : List (String × Nat) :=
  if m.any (fun p => p.1 == k) then
    m.map fun p => if p.1 == k then (p.1, p.2 + 1) else p
  else m ++ [(k, 1)]

/-- `String(n)` applied to a rating value.  Every rating bucket the claims
exercise is integral, where JavaScript prints the plain integer; non-integral
keys would only add extra buckets never mentioned by the claims. -/
def jsNumberToString (q : ℚ) : String :=
  if q.den = 1 then toString q.num else toString q

/-- Keyword accumulation for one token. -/
def kwStep (st : AnalysisState) (tok : String) : AnalysisState :=
  { st with keywordFreq := bump st.keywordFreq tok }

/-- The body of `for (const row of rows)` (analysis.ts lines 186-217):
coerce a missing rating to 0; accumulate sum and distribution only for
ratings in [1,5]; classify the cleaned text's sentiment score into the
three buckets, retaining positive/negative rows for snippet ranking; and
accumulate keyword frequencies. -/
def step (score : String → ℤ) (st : AnalysisState) (row : ReviewRow) :
    AnalysisState :=
  let rating := row.rating.getD 0
  let text := cleanReviewText (row.review_text.getD "")
  let st1 :=
    if 1 ≤ rating ∧ rating ≤ 5 then
      { st with ratingSum := st.ratingSum + rating,
                dist := bump st.dist (jsNumberToString rating) }
    else st
  let s := score text
  let st2 :=
    if 1 < s then
      { st1 with posCount := st1.posCount + 1,
                 positiveReviews := st1.positiveReviews ++ [⟨text, s, rating⟩] }
    else if s < -1 then
      { st1 with negCount := st1.negCount + 1,
                 negativeReviews := st1.negativeReviews ++ [⟨text, s, rating⟩] }
    else { st1 with neuCount := st1.neuCount + 1 }
  (tokenize text).foldl kwStep st2

/-- Stable insertion of an element after all elements with a key at least as
large (descending sort step). -/
def insDesc (key : α → ℤ) : List α → α → List α
  | [], x => [x]
  | y :: ys, x => if key y ≥ key x then y :: insDesc key ys x else x :: y :: ys

/-- Stable descending sort by an integer key, the behavior of the stable
`Array.prototype.sort` with comparator `(a, b) => key b - key a`. -/
def sortDescBy (key : α → ℤ) (l : List α) : List α := l.foldl (insDesc key) []

/-- Stable insertion of an element after all elements with a key at most as
large (ascending sort step). -/
def insAsc (key : α → ℤ) : List α → α → List α
  | [], x => [x]
  | y :: ys, x => if key y ≤ key x then y :: insAsc key ys x else x :: y :: ys

/-- Stable ascending sort by an integer key, the behavior of the stable
`Array.prototype.sort` with comparator `(a, b) => key a - key b`. -/
def sortAscBy (key : α → ℤ) (l : List α) : List α := l.foldl (insAsc key) []

/-- `Math.round`: round half toward positive infinity, which is Mathlib's
`round` on ℚ. -/
def jsMathRound (q : ℚ) : ℤ := round q

/-- `parseFloat(x.toFixed(2))`: rounding to two decimals.  `toFixed` rounds
the IEEE-754 double to the nearest two-decimal value; on the rational inputs
of this development the two agree (no representable tie arises). -/
def round2 (q : ℚ) : ℚ := ((round (q * 100) : ℤ) : ℚ) / 100

/-- The body of `analyzeCompetitor` after the rows are fetched (analysis.ts
lines 144-261): the zero-row early return (with an empty distribution
object), otherwise the accumulation loop followed by average, percentage,
keyword-ranking and snippet-ranking computations. -/
def analyzeRows (score : String → ℤ) (cid : String) (rows : List ReviewRow) :
    CompetitorAnalysis :=
  let totalReviews := rows.length
  if totalReviews = 0 then
    { competitor_id := cid, total_reviews := 0, avg_rating := none,
      rating_distribution := [],
      sentiment_breakdown := ⟨0, 0, 0⟩,
      top_keywords := [], top_positive_snippets := [], top_negative_snippets := [] }
  else
    let st := rows.foldl (step score) initState
    let avgRating :=
      if 0 < totalReviews ∧ 0 < st.ratingSum then
        some (round2 (st.ratingSum / (totalReviews : ℚ)))
      else none
    { competitor_id := cid,
      total_reviews := totalReviews,
      avg_rating := avgRating,
      rating_distribution := st.dist,
      sentiment_breakdown :=
        ⟨jsMathRound (((st.posCount : ℚ) / (totalReviews : ℚ)) * 100),
         jsMathRound (((st.neuCount : ℚ) / (totalReviews : ℚ)) * 100),
         jsMathRound (((st.negCount : ℚ) / (totalReviews : ℚ)) * 100)⟩,
      top_keywords :=
        ((sortDescBy (fun p => (p.2 : ℤ)) st.keywordFreq).take 15).map Prod.fst,
      top_positive_snippets :=
        ((sortDescBy (fun r => r.score) st.positiveReviews).take 5).map ScoredReview.text,
      top_negative_snippets :=
        ((sortAscBy (fun r => r.score) st.negativeReviews).take 5).map ScoredReview.text }

/-- Embedding of `analyzeCompetitor` (analysis.ts lines 131-261) as a pure
function of the stored table: fetch the competitor's non-NULL-text rows and
aggregate them.  `score` is the external lexicon sentiment scorer
(`sentiment.analyze(text).score`). -/
def analyzeCompetitor (score : String → ℤ) (store : List InsertedRow)
    (cid : String) : CompetitorAnalysis :=
  analyzeRows score cid (fetchReviewRows store cid)

/-- Sum of the in-range (coerced) ratings of a row list, the quantity the
loop accumulates in `ratingSum`; stated recursively for the proofs. -/
def inRangeSum : List ReviewRow → ℚ
  | [] => 0
  | row :: rs =>
    (if 1 ≤ row.rating.getD 0 ∧ row.rating.getD 0 ≤ 5 then row.rating.getD 0 else 0)
      + inRangeSum rs

/-! ## Concrete fixtures used by witnesses and counterexamples -/

/-- A well-formed first item for the C1 scenario. -/
def c1ItemA : ReviewItem :=
  { innerTextR := Except.ok "Alice Person",
    ratingEl := none, nameEl := none, textEl := none, dateEl := none }

/-- The second item of the C1 scenario, whose text read throws. -/
def c1ItemB : ReviewItem :=
  { innerTextR := Except.error "boom",
    ratingEl := none, nameEl := none, textEl := none, dateEl := none }

/-- A well-formed third item for the C1 scenario. -/
def c1ItemC : ReviewItem :=
  { innerTextR := Except.ok "Carol Person",
    ratingEl := none, nameEl := none, textEl := none, dateEl := none }

/-- The record scraped from `c1ItemA`. -/
def c1RecA : ScrapedReview := ⟨none, none, none, some "Alice Person"⟩

/-- The record scraped from `c1ItemC`. -/
def c1RecC : ScrapedReview := ⟨none, none, none, some "Carol Person"⟩

/-- A plain item for the C2 witness. -/
def c2Item : ReviewItem :=
  { innerTextR := Except.ok "Friendly staff members",
    ratingEl := none, nameEl := none, textEl := none, dateEl := none }

/-- The record scraped from `c2Item`. -/
def c2Rec : ScrapedReview := ⟨none, none, none, some "Friendly staff members"⟩

/-- The item of the C3 extraction scenario: no structured sub-element, only
the flattened text. -/
def c3Item : ReviewItem :=
  { innerTextR := Except.ok "Jane Doe\n4 stars\nGreat food, slow service\n2 months ago",
    ratingEl := none, nameEl := none, textEl := none, dateEl := none }

/-- An item carrying a relative date string, for the C9 witness. -/
def c9Item : ReviewItem :=
  { innerTextR := Except.ok "Dana\n2 months ago",
    ratingEl := none, nameEl := none, textEl := none,
    dateEl := some (Except.ok "2 months ago") }

/-- The record scraped from `c9Item`. -/
def c9Rec : ScrapedReview := ⟨none, none, some "2 months ago", some "Dana"⟩

/-- A raw capture with no processed fields, for stored-row fixtures. -/
def emptyCapture : ScrapedReview := ⟨none, none, none, none⟩

/-- Stored rows with ratings `[5, null]` and non-null texts (C6
counterexample). -/
def c6StoreA : List InsertedRow :=
  [{ competitor_id := "c6", rating := some 5, review_text := some "a",
     review_date := none, reviewer_name := none, source := "google_maps",
     raw_data := emptyCapture },
   { competitor_id := "c6", rating := none, review_text := some "b",
     review_date := none, reviewer_name := none, source := "google_maps",
     raw_data := emptyCapture }]

/-- Stored rows with ratings `[5, 4, 4, 3]` and non-null texts. -/
def c6StoreB : List InsertedRow :=
  [5, 4, 4, 3].map fun q =>
    { competitor_id := "cx", rating := some q, review_text := some "t",
      review_date := none, reviewer_name := none, source := "google_maps",
      raw_data := emptyCapture }

/-- One stored record whose review text is NULL (C7 counterexample). -/
def c7Store : List InsertedRow :=
  [{ competitor_id := "c7", rating := some 5, review_text := none,
     review_date := none, reviewer_name := none, source := "google_maps",
     raw_data := emptyCapture }]

/-- The raw text of the C8 cleaning scenario. -/
def c8Raw : String := "Local Guide · 12 reviews · 3 photos\nGreat place!!"

/-! ## Helper lemmas -/

/-- A truthy nullable string survives the `|| null` coercion. -/
theorem jsOrNull_ne_none (o : Option String) (h : jsTruthyS o = true) :
    jsOrNull o ≠ none := by
  cases o with
  | none => simp [jsTruthyS] at h
  | some s =>
    have hs : ¬ s = "" := by simpa [jsTruthyS] using h
    simp [jsOrNull, hs]

/-- A record the acceptance check emits has at least one non-null field. -/
theorem buildRecord_some {a : Option ℚ} {b c d : Option String} {r : ScrapedReview}
    (h : buildRecord a b c d = some r) :
    r.rating ≠ none ∨ r.review_text ≠ none ∨ r.reviewer_name ≠ none ∨
      r.review_date ≠ none := by
  unfold buildRecord at h
  by_cases hg : (jsTruthyQ a || jsTruthyS b || jsTruthyS d || jsTruthyS c) = true
  · rw [if_pos hg] at h
    have hr : r = { rating := a, review_text := jsOrNull b,
                    review_date := jsOrNull c, reviewer_name := jsOrNull d } :=
      (Option.some.injEq _ _ ▸ h).symm
    subst hr
    rcases Bool.or_eq_true_iff.mp hg with hg | hd
    · rcases Bool.or_eq_true_iff.mp hg with hg | hn
      · rcases Bool.or_eq_true_iff.mp hg with ha | hb
        · left
          cases a with
          | none => simp [jsTruthyQ] at ha
          | some q => simp
        · right; left
          exact jsOrNull_ne_none b hb
      · right; right; left
        exact jsOrNull_ne_none d hn
    · right; right; right
      exact jsOrNull_ne_none c hd
  · rw [if_neg hg] at h
    exact absurd h (by simp)

/-- Every record `processItem` accepts has at least one non-null field. -/
theorem processItem_some {item : ReviewItem} {r : ScrapedReview}
    (h : processItem item = some r) :
    r.rating ≠ none ∨ r.review_text ≠ none ∨ r.reviewer_name ≠ none ∨
      r.review_date ≠ none := by
  unfold processItem at h
  cases hx : item.innerTextR with
  | error e => rw [hx] at h; exact absurd h (by simp)
  | ok allText =>
    rw [hx] at h
    dsimp only [] at h
    by_cases h1 : (allText == "" || jsTrim allText == "") = true
    · rw [if_pos h1] at h; exact absurd h (by simp)
    · rw [if_neg h1] at h
      by_cases h2 : (jsLines allText).isEmpty = true
      · rw [if_pos h2] at h; exact absurd h (by simp)
      · rw [if_neg h2] at h
        exact buildRecord_some h

/-- A throwing text read makes the item loop skip the item. -/
theorem processItem_text_throws {item : ReviewItem} {e : String}
    (h : item.innerTextR = Except.error e) : processItem item = none := by
  unfold processItem
  rw [h]

/-- Closed form of the insert loop: the rows written are exactly the scraped
records at loop indices where the INSERT succeeds, in order, and the count
is their number. -/
theorem insertAll_eq (cid : String) (ok : Nat → Bool) :
    ∀ (scraped : List ScrapedReview) (n : Nat),
      insertAll cid ok n scraped
        = (((List.enumFrom n scraped).filter fun p => ok p.1).map fun p => toRow cid p.2,
           (((List.enumFrom n scraped).filter fun p => ok p.1)).length) := by
  intro scraped
  induction scraped with
  | nil => intro n; simp [insertAll, List.enumFrom]
  | cons r rs ih =>
    intro n
    cases hk : ok n with
    | true => simp [insertAll, List.enumFrom, List.filter_cons, hk, ih (n + 1)]
    | false => simp [insertAll, List.enumFrom, List.filter_cons, hk, ih (n + 1)]

/-- Every row the insert loop writes is the INSERT image of a scraped
record. -/
theorem mem_insertAll (cid : String) (ok : Nat → Bool) :
    ∀ (scraped : List ScrapedReview) (n : Nat) (row : InsertedRow),
      row ∈ (insertAll cid ok n scraped).1 →
      ∃ r, r ∈ scraped ∧ row = toRow cid r := by
  intro scraped
  induction scraped with
  | nil => intro n row h; simp [insertAll] at h
  | cons r rs ih =>
    intro n row h
    simp only [insertAll] at h
    cases hk : ok n with
    | true =>
      rw [hk] at h
      simp only [if_pos] at h
      rcases List.mem_cons.mp h with h1 | h2
      · exact ⟨r, List.mem_cons_self r rs, h1⟩
      · rcases ih (n + 1) row h2 with ⟨r', hr', heq⟩
        exact ⟨r', List.mem_cons_of_mem r hr', heq⟩
    | false =>
      rw [hk] at h
      simp only [if_neg, Bool.false_eq_true, not_false_eq_true] at h
      rcases ih (n + 1) row h with ⟨r', hr', heq⟩
      exact ⟨r', List.mem_cons_of_mem r hr', heq⟩

/-- Keyword accumulation never touches `ratingSum`. -/
theorem kwFold_ratingSum (toks : List String) :
    ∀ st : AnalysisState, ((toks.foldl kwStep st).ratingSum) = st.ratingSum := by
  induction toks with
  | nil => intro st; rfl
  | cons t ts ih => intro st; rw [List.foldl_cons, ih]; rfl

/-- One loop iteration adds the row's in-range coerced rating (or nothing)
to `ratingSum`. -/
theorem step_ratingSum (score : String → ℤ) (st : AnalysisState) (row : ReviewRow) :
    (step score st row).ratingSum
      = st.ratingSum +
          (if 1 ≤ row.rating.getD 0 ∧ row.rating.getD 0 ≤ 5 then row.rating.getD 0
           else 0) := by
  unfold step
  rw [kwFold_ratingSum]
  split_ifs with h1 h2 h3 <;> simp

/-- The loop accumulates exactly the in-range rating sum. -/
theorem foldl_ratingSum (score : String → ℤ) (rows : List ReviewRow) :
    ∀ st : AnalysisState,
      ((rows.foldl (step score) st).ratingSum) = st.ratingSum + inRangeSum rows := by
  induction rows with
  | nil => intro st; simp [inRangeSum]
  | cons r rs ih =>
    intro st
    rw [List.foldl_cons, ih, step_ratingSum, inRangeSum]
    ring

/-! ## Claims

The Batteries rational-number operations are `@[irreducible]`, which blocks
`decide`'s evaluation of the embedding on concrete inputs; inside this
section they are restored to their natural reducibility (a proof-search
setting only — it changes no definition and no statement). -/

section ClaimProofs

attribute [local semireducible] Rat.add Rat.mul Rat.sub Rat.inv Rat.ofScientific

/-- C1: per-item failure isolation in scrape — with three located items
where the second item's text read throws, the failure is caught inside the
item's failure boundary and iteration continues: the records of items 1 and
3 are persisted and the returned count is 2; the malformed item does not
abort the batch. -/
theorem scrape_isolates_text_read_failure
    (cid : String) (i1 i2 i3 : ReviewItem) (mr : Nat) (ok : Nat → Bool)
    (db : List InsertedRow) (r1 r3 : ScrapedReview) (e : String)
    (h1 : processItem i1 = some r1) (h2 : i2.innerTextR = Except.error e)
    (h3 : processItem i3 = some r3) (hmr : 3 ≤ mr)
    (k0 : ok 0 = true) (k1 : ok 1 = true) :
    scrapeGoogleMapsReviews cid [i1, i2, i3] mr ok db
      = (db ++ [toRow cid r1, toRow cid r3], 2) := by
  have htake : [i1, i2, i3].take mr = [i1, i2, i3] :=
    List.take_of_length_le (by simpa using hmr)
  have hp2 : processItem i2 = none := processItem_text_throws h2
  unfold scrapeGoogleMapsReviews scrapedOf
  rw [htake]
  simp [List.filterMap_cons, h1, hp2, h3, insertAll, k0, k1]

/-- Witness for C1 at a concrete renderer: three items, the second throwing
on its text read, yield exactly the first and third records and count 2. -/
theorem scrape_isolates_text_read_failure_witness :
    scrapeGoogleMapsReviews "c1" [c1ItemA, c1ItemB, c1ItemC] 20 (fun _ => true) []
      = ([] ++ [toRow "c1" c1RecA, toRow "c1" c1RecC], 2) :=
  scrape_isolates_text_read_failure "c1" c1ItemA c1ItemB c1ItemC 20 (fun _ => true)
    [] c1RecA c1RecC "boom" (by decide) rfl (by decide) (by decide) rfl rfl

/-- C2: persistence acceptance invariant — every record the item loop hands
to the insert loop has at least one non-null field among rating, review
text, reviewer name and review date; an all-null record is never handed to
the persistence collaborator. -/
theorem scraped_record_never_all_null
    (items : List ReviewItem) (mr : Nat) (r : ScrapedReview)
    (h : r ∈ scrapedOf items mr) :
    r.rating ≠ none ∨ r.review_text ≠ none ∨ r.reviewer_name ≠ none ∨
      r.review_date ≠ none := by
  unfold scrapedOf at h
  rcases List.mem_filterMap.mp h with ⟨item, _, hp⟩
  exact processItem_some hp

/-- Witness for C2 at a concrete item: its scraped record is in the list
handed to persistence and has a non-null field. -/
theorem scraped_record_never_all_null_witness :
    c2Rec ∈ scrapedOf [c2Item] 5 ∧
      (c2Rec.rating ≠ none ∨ c2Rec.review_text ≠ none ∨
        c2Rec.reviewer_name ≠ none ∨ c2Rec.review_date ≠ none) :=
  ⟨by decide, scraped_record_never_all_null [c2Item] 5 c2Rec (by decide)⟩

/-- C3: text-fallback extraction — an item with no structured
sub-element whose flattened text is
"Jane Doe\n4 stars\nGreat food, slow service\n2 months ago" yields
reviewer name "Jane Doe", rating 4, review text
"Great food, slow service" and review date "2 months ago" through the
text-based fallback tiers. -/
theorem text_fallback_extraction :
    processItem c3Item
      = some { rating := some 4, review_text := some "Great food, slow service",
               review_date := some "2 months ago", reviewer_name := some "Jane Doe" } := by
  decide

/-- C4: per-record persistence failure isolation — the rows a scrape writes
are exactly the scraped records at the loop indices where the INSERT
succeeds (a failed INSERT is skipped, iteration continues, earlier rows stay
written), and the returned value is the number of records actually
persisted, not the number scraped. -/
theorem scrape_count_is_persisted_count
    (cid : String) (items : List ReviewItem) (mr : Nat) (ok : Nat → Bool)
    (db : List InsertedRow) :
    scrapeGoogleMapsReviews cid items mr ok db
      = (db ++ (((List.enumFrom 0 (scrapedOf items mr)).filter fun p => ok p.1).map
            fun p => toRow cid p.2),
         (((List.enumFrom 0 (scrapedOf items mr)).filter fun p => ok p.1)).length) := by
  unfold scrapeGoogleMapsReviews
  dsimp only []
  rw [insertAll_eq]

/-- C5 (counterexample): on zero stored records the returned rating
distribution is the empty object — bucket "1" is not present, contradicting
the claimed zero-filled buckets "1".."5". -/
theorem zero_records_distribution_empty :
    (analyzeCompetitor (fun _ => 0) [] "c5").rating_distribution = [] ∧
      ("1", 0) ∉ (analyzeCompetitor (fun _ => 0) [] "c5").rating_distribution := by
  decide

/-- C5 (amended): on zero stored records, `analyze` returns total 0, null
average, all sentiment percentages 0, empty keyword and snippet lists, and
an empty rating distribution (the "1".."5" zero-filled buckets exist only on
the non-empty path). -/
theorem zero_records_analysis_shape (score : String → ℤ) (cid : String) :
    analyzeCompetitor score [] cid
      = { competitor_id := cid, total_reviews := 0, avg_rating := none,
          rating_distribution := [],
          sentiment_breakdown := ⟨0, 0, 0⟩,
          top_keywords := [], top_positive_snippets := [],
          top_negative_snippets := [] } := rfl

/-- C6 (counterexample): for stored ratings `[5, null]` with non-null
texts, the returned average is 2.5 — the in-range sum divided by the number
of fetched records — and not 5, the arithmetic mean of the in-range
ratings; the claim's formula fails. -/
theorem avg_rating_counterexample :
    (analyzeCompetitor (fun _ => 0) c6StoreA "c6").avg_rating = some (5 / 2) ∧
      ((5 : ℚ) / 2) ≠ 5 := by
  decide

/-- C6 (amended): whenever the returned average is non-null it equals the
sum of the in-range ratings of the fetched rows (those with non-null text)
divided by the number of fetched rows, rounded to two decimals; in
particular ratings `[5, 4, 4, 3]` with non-null texts give exactly 4. -/
theorem avg_rating_formula :
    (∀ (score : String → ℤ) (store : List InsertedRow) (cid : String),
      (analyzeCompetitor score store cid).avg_rating
        = if 0 < (fetchReviewRows store cid).length ∧
             0 < inRangeSum (fetchReviewRows store cid)
          then some (round2 (inRangeSum (fetchReviewRows store cid) /
                 ((fetchReviewRows store cid).length : ℚ)))
          else none)
    ∧ (analyzeCompetitor (fun _ => 0) c6StoreB "cx").avg_rating = some 4 := by
  constructor
  · intro score store cid
    unfold analyzeCompetitor analyzeRows
    by_cases h0 : (fetchReviewRows store cid).length = 0
    · have hnil : fetchReviewRows store cid = [] := List.length_eq_zero.mp h0
      simp [h0, hnil, inRangeSum]
    · have hsum : ((fetchReviewRows store cid).foldl
          (step score) initState).ratingSum = inRangeSum (fetchReviewRows store cid) := by
        rw [foldl_ratingSum]
        simp [initState]
      simp [h0, hsum]
  · decide

/-- C7 (counterexample): a stored record for the competitor whose review
text is NULL is not counted — `total_reviews` is 0 while the competitor has
1 stored record, contradicting the claim that every stored record counts. -/
theorem total_reviews_excludes_null_text :
    (analyzeCompetitor (fun _ => 0) c7Store "c7").total_reviews = 0 ∧
      (c7Store.filter fun r => r.competitor_id == "c7").length = 1 ∧
      (0 : Nat) ≠ 1 := by
  decide

/-- C7 (amended): `total_reviews` equals the number of stored records for
the competitor whose review text is non-null (the analysis query filters
`review_text IS NOT NULL`), whatever their ratings. -/
theorem total_reviews_counts_fetched
    (score : String → ℤ) (store : List InsertedRow) (cid : String) :
    (analyzeCompetitor score store cid).total_reviews
      = (fetchReviewRows store cid).length := by
  unfold analyzeCompetitor analyzeRows
  by_cases h0 : (fetchReviewRows store cid).length = 0
  · simp [h0]
  · simp [h0]

/-- C8 (counterexample): the cleaning pass does not reduce the scenario
text to "Great place!!". -/
theorem cleaning_scenario_divergence :
    cleanReviewText c8Raw ≠ "Great place!!" := by
  decide

/-- C8 (amended): cleaning "Local Guide · 12 reviews · 3 photos\nGreat
place!!" yields "· 12 · 3 photos\nGreat place!!": the word "reviews" and the
literal "Local Guide" are stripped, but the separators, the counters, the
English word "photos" (the pattern only strips Dutch "foto(\x27)s") and the
single newline survive, since only whitespace runs of length at least two
collapse. -/
theorem cleaning_scenario_actual :
    cleanReviewText c8Raw = "· 12 · 3 photos\nGreat place!!" := by
  decide

/-- C9: date opacity — every row a scrape adds to the table is the INSERT
image of a scraped record and its `review_date` column holds exactly the
relative-time string the extractor read from the page (or NULL); the string
is never parsed or converted into a timestamp before or during
persistence. -/
theorem persisted_date_is_unconverted
    (cid : String) (items : List ReviewItem) (mr : Nat) (ok : Nat → Bool)
    (db : List InsertedRow) (row : InsertedRow)
    (h : row ∈ (scrapeGoogleMapsReviews cid items mr ok db).1) :
    row ∈ db ∨ ∃ r, r ∈ scrapedOf items mr ∧ row = toRow cid r ∧
      row.review_date = r.review_date := by
  unfold scrapeGoogleMapsReviews at h
  rcases List.mem_append.mp h with hdb | hins
  · exact Or.inl hdb
  · rcases mem_insertAll cid ok (scrapedOf items mr) 0 row hins with ⟨r, hr, heq⟩
    subst heq
    exact Or.inr ⟨r, hr, rfl, rfl⟩

/-- Witness for C9 at a concrete item whose date element reads
"2 months ago": the persisted row carries that very string. -/
theorem persisted_date_is_unconverted_witness :
    toRow "c9" c9Rec ∈ (scrapeGoogleMapsReviews "c9" [c9Item] 5 (fun _ => true) []).1 ∧
      (toRow "c9" c9Rec ∈ ([] : List InsertedRow) ∨
        ∃ r, r ∈ scrapedOf [c9Item] 5 ∧ toRow "c9" c9Rec = toRow "c9" r ∧
          (toRow "c9" c9Rec).review_date = r.review_date) :=
  ⟨by decide,
   persisted_date_is_unconverted "c9" [c9Item] 5 (fun _ => true) []
     (toRow "c9" c9Rec) (by decide)⟩

/-- C10: insert-only storage effect — a scrape only appends to the reviews
table: the table after the call is the table before the call followed by the
newly inserted rows, so every previously stored record is preserved
unchanged and in place. -/
theorem scrape_only_appends
    (cid : String) (items : List ReviewItem) (mr : Nat) (ok : Nat → Bool)
    (db : List InsertedRow) :
    ∃ tail, (scrapeGoogleMapsReviews cid items mr ok db).1 = db ++ tail :=
  ⟨(insertAll cid ok 0 (scrapedOf items mr)).1, rfl⟩

end ClaimProofs

end CompSnapshots
